import Mathlib

set_option maxRecDepth 4000

/-!
Verification of the smell-detection / LLM-refactoring pipeline.

The development shallowly embeds the two Python modules of the repository:
`refactoring_pipeline` (detector, refactorer) under namespace `Pipeline`,
and `scripts/refactor_pipeline.py` under namespace `Scripts`.
External collaborators (the javalang parser, the file system, the LLM
completion client) are modelled as explicit inputs: a parse outcome, a
`readFile` function, an `api` function, or a list of per-attempt call results.
-/

namespace PyJson

/-- A JSON value as produced by the Python `json.loads` call used by the
pipeline.  Numbers are restricted to integers (the modelled fragment; the
pipeline only ever consumes integer `smell_index` values). -/
inductive JValue where
  | null : JValue
  | bool (b : Bool) : JValue
  | num (n : Int) : JValue
  | str (s : String) : JValue
  | arr (elems : List JValue) : JValue
  | obj (fields : List (String × JValue)) : JValue

/-- The opening-brace character, written by code point to keep source plain. -/
def lbraceChar : Char := Char.ofNat 123

/-- The closing-brace character. -/
def rbraceChar : Char := Char.ofNat 125

/-- JSON whitespace accepted between tokens by `json.loads`. -/
def isJsonWs (c : Char) : Bool :=
  c = ' ' || c = '\t' || c = '\n' || c = '\r'

/-- Drop leading JSON whitespace. -/
def skipWs : List Char → List Char
  | [] => []
  | c :: cs => if isJsonWs c then skipWs cs else c :: cs

/-- Decode a JSON string body (after the opening quote), supporting the basic
escape sequences; `\uXXXX` escapes are outside the modelled fragment. -/
def parseStrChars : List Char → Option (List Char × List Char)
  | [] => none
  | '\\' :: e :: rest =>
    match
      (match e with
        | '"' => some '"'
        | '\\' => some '\\'
        | '/' => some '/'
        | 'n' => some '\n'
        | 't' => some '\t'
        | 'r' => some '\r'
        | 'b' => some (Char.ofNat 8)
        | 'f' => some (Char.ofNat 12)
        | _ => none) with
    | none => none
    | some d =>
      match parseStrChars rest with
      | none => none
      | some (s, r) => some (d :: s, r)
  | c :: rest =>
    if c = '"' then some ([], rest)
    else
      match parseStrChars rest with
      | none => none
      | some (s, r) => some (c :: s, r)

/-- Numeric value of a digit string. -/
def digitsToNat (ds : List Char) : Nat :=
  ds.foldl (fun a c => a * 10 + (c.toNat - 48)) 0

/-- Insert a key into an object under Python `dict` semantics: a duplicate key
keeps its original position and its value is overwritten. -/
def dictInsert (fields : List (String × JValue)) (k : String) (v : JValue) :
    List (String × JValue) :=
  if fields.any (fun f => f.1 = k) then
    fields.map (fun f => if f.1 = k then (k, v) else f)
  else fields ++ [(k, v)]

mutual

/-- Fuelled recursive-descent JSON value parser modelling `json.loads`
(on the integer/basic-escape fragment). -/
def parseVal (fuel : Nat) (cs : List Char) : Option (JValue × List Char) :=
  match fuel with
  | 0 => none
  | fuel' + 1 =>
    match skipWs cs with
    | [] => none
    | c :: rest =>
      if c = '"' then
        match parseStrChars rest with
        | some (s, r) => some (JValue.str (String.mk s), r)
        | none => none
      else if c = lbraceChar then
        match skipWs rest with
        | d :: r2 =>
          if d = rbraceChar then some (JValue.obj [], r2)
          else parseObjFields fuel' (d :: r2) []
        | [] => none
      else if c = '[' then
        match skipWs rest with
        | d :: r2 =>
          if d = ']' then some (JValue.arr [], r2)
          else parseArrElems fuel' (d :: r2) []
        | [] => none
      else if c = 't' then
        match rest with
        | 'r' :: 'u' :: 'e' :: r => some (JValue.bool true, r)
        | _ => none
      else if c = 'f' then
        match rest with
        | 'a' :: 'l' :: 's' :: 'e' :: r => some (JValue.bool false, r)
        | _ => none
      else if c = 'n' then
        match rest with
        | 'u' :: 'l' :: 'l' :: r => some (JValue.null, r)
        | _ => none
      else if c = '-' then
        match rest.span Char.isDigit with
        | ([], _) => none
        | (ds, r) => some (JValue.num (-(digitsToNat ds : Int)), r)
      else if c.isDigit then
        match (c :: rest).span Char.isDigit with
        | (ds, r) => some (JValue.num (digitsToNat ds), r)
      else none

/-- Parse the elements of a non-empty JSON array. -/
def parseArrElems (fuel : Nat) (cs : List Char) (acc : List JValue) :
    Option (JValue × List Char) :=
  match fuel with
  | 0 => none
  | fuel' + 1 =>
    match parseVal fuel' cs with
    | none => none
    | some (v, r) =>
      match skipWs r with
      | ',' :: r2 => parseArrElems fuel' r2 (acc ++ [v])
      | ']' :: r2 => some (JValue.arr (acc ++ [v]), r2)
      | _ => none

/-- Parse the members of a non-empty JSON object. -/
def parseObjFields (fuel : Nat) (cs : List Char) (acc : List (String × JValue)) :
    Option (JValue × List Char) :=
  match fuel with
  | 0 => none
  | fuel' + 1 =>
    match skipWs cs with
    | [] => none
    | c :: rest =>
      if c = '"' then
        match parseStrChars rest with
        | none => none
        | some (k, r) =>
          match skipWs r with
          | ':' :: r2 =>
            match parseVal fuel' r2 with
            | none => none
            | some (v, r3) =>
              match skipWs r3 with
              | ',' :: r4 => parseObjFields fuel' r4 (dictInsert acc (String.mk k) v)
              | d :: r4 =>
                if d = rbraceChar then
                  some (JValue.obj (dictInsert acc (String.mk k) v), r4)
                else none
              | [] => none
          | _ => none
      else none

end

/-- Model of `json.loads` applied to a character sequence: a full JSON value
with nothing but whitespace left over; `none` models a raised
`json.JSONDecodeError`. -/
def jsonLoads (cs : List Char) : Option JValue :=
  match parseVal (2 * cs.length + 4) cs with
  | some (v, rest) => if (skipWs rest).isEmpty then some v else none
  | none => none

end PyJson

namespace Pipeline

open PyJson

/-- `detector.DesignSmell`: a detected design smell record. -/
structure DesignSmell where
  smell_type : String
  file_path : String
  location : String
  line_range : String
  severity : String
  description : String
  detection_method : String
deriving DecidableEq, Repr

/-- `detector.FileMetrics`: metrics for one analysed Java file. -/
structure FileMetrics where
  file_path : String
  total_lines : Nat
  method_count : Nat
  field_count : Nat
  class_count : Nat
  max_method_length : Nat
  max_parameter_count : Nat
deriving DecidableEq, Repr

/-- The entries of `config.SMELL_THRESHOLDS` read by `_static_analysis`. -/
structure Thresholds where
  godMaxMethods : Nat
  godMaxFields : Nat
  longParamMaxParams : Nat
  largeMaxLines : Nat

/-- The default values of `config.SMELL_THRESHOLDS`
(god_class 15 methods / 10 fields, long_parameter_list 5, large_class 300). -/
def defaultThresholds : Thresholds := ⟨15, 10, 5, 300⟩

/-- A node of the javalang AST as consumed by `_static_analysis`: the walk
`for path, node in tree` only inspects `ClassDeclaration` nodes (name, method
list length, field list length, position) and `MethodDeclaration` nodes
(name, parameter count, body statement count, position); every other node
kind is irrelevant to the analysis. -/
inductive JNode where
  | classDecl (name : String) (methods : Nat) (fields : Nat) (posLine : Option Nat)
  | methodDecl (name : String) (params : Nat) (body : Option Nat) (posLine : Option Nat)
  | other

/-- One input file for the detector, carrying the outcome of the external
`javalang.parse.parse` call on its content (`Except.error e` models that call
raising an exception whose class name is `e`) together with the line count of
the content (`len(content.split("\n"))`). -/
structure JavaFile where
  relPath : String
  stem : String
  parseResult : Except String (List JNode)
  numLines : Nat

/-- Render `node.position.line if node.position else '?'`. -/
def posStr : Option Nat → String
  | some l => toString l
  | none => "?"

/-- Accumulator of the `for path, node in tree` walk in `_static_analysis`. -/
structure ScanState where
  smells : List DesignSmell
  methodCount : Nat
  fieldCount : Nat
  classCount : Nat
  maxMethodLength : Nat
  maxParamCount : Nat

/-- The God Class record appended by `_static_analysis`.  The severity test
`class_methods > thresholds["max_methods"] * 1.5` is expressed exactly over
integers as `2 * methods > 3 * max_methods`. -/
def godClassSmell (th : Thresholds) (relPath name : String) (methods fields : Nat)
    (posLine : Option Nat) : DesignSmell :=
  { smell_type := "God Class"
    file_path := relPath
    location := name
    line_range := posStr posLine
    severity := if 3 * th.godMaxMethods < 2 * methods then "HIGH" else "MEDIUM"
    description := "Class has " ++ toString methods ++ " methods and " ++
      toString fields ++ " fields. Consider splitting into smaller, focused classes."
    detection_method := "static" }

/-- The Long Parameter List record appended by `_static_analysis`. -/
def longParamSmell (relPath name : String) (params : Nat) (posLine : Option Nat) :
    DesignSmell :=
  { smell_type := "Long Parameter List"
    file_path := relPath
    location := name ++ "()"
    line_range := posStr posLine
    severity := "MEDIUM"
    description := "Method has " ++ toString params ++
      " parameters. Consider using a Parameter Object pattern."
    detection_method := "static" }

/-- The Large Class record appended by `_static_analysis` when
`total_lines > SMELL_THRESHOLDS["large_class"]["max_lines"]`. -/
def largeClassSmell (relPath stem : String) (totalLines : Nat) : DesignSmell :=
  { smell_type := "Large Class"
    file_path := relPath
    location := stem
    line_range := "1-" ++ toString totalLines
    severity := if totalLines < 500 then "MEDIUM" else "HIGH"
    description := "File has " ++ toString totalLines ++
      " lines. Consider breaking into smaller classes."
    detection_method := "static" }

/-- One step of the `for path, node in tree` walk of `_static_analysis`. -/
def visitNode (th : Thresholds) (relPath : String) (st : ScanState) (n : JNode) :
    ScanState :=
  match n with
  | JNode.classDecl name methods fields pos =>
    let st1 := { st with classCount := st.classCount + 1 }
    let st2 :=
      if th.godMaxMethods < methods ∨ th.godMaxFields < fields then
        { st1 with smells := st1.smells ++ [godClassSmell th relPath name methods fields pos] }
      else st1
    { st2 with methodCount := st2.methodCount + methods,
               fieldCount := st2.fieldCount + fields }
  | JNode.methodDecl name params body pos =>
    let st1 := { st with maxParamCount := max st.maxParamCount params }
    let st2 :=
      if th.longParamMaxParams < params then
        { st1 with smells := st1.smells ++ [longParamSmell relPath name params pos] }
      else st1
    match body with
    | some bl => { st2 with maxMethodLength := max st2.maxMethodLength bl }
    | none => st2
  | JNode.other => st

/-- `detector._static_analysis`: the only caught exception is
`javalang.parser.JavaSyntaxError`, which yields `([], None)`; any other
exception of the external parser propagates (`Except.error`). -/
def staticAnalysis (th : Thresholds) (f : JavaFile) :
    Except String (List DesignSmell × Option FileMetrics) :=
  match f.parseResult with
  | Except.error e =>
    if e = "JavaSyntaxError" then Except.ok ([], none) else Except.error e
  | Except.ok nodes =>
    let st := nodes.foldl (visitNode th f.relPath) ⟨[], 0, 0, 0, 0, 0⟩
    let smells := st.smells ++
      (if th.largeMaxLines < f.numLines then [largeClassSmell f.relPath f.stem f.numLines]
       else [])
    Except.ok (smells, some ⟨f.relPath, f.numLines, st.methodCount, st.fieldCount,
      st.classCount, st.maxMethodLength, st.maxParamCount⟩)

/-- `detector._analyze_file` in the `use_llm = False` configuration
(`self.model is None`): only the static analysis runs. -/
def analyzeFile (th : Thresholds) (f : JavaFile) :
    Except String (List DesignSmell × Option FileMetrics) :=
  staticAnalysis th f

/-- One iteration of the `for file_path in java_files` loop of
`scan_repository`: results are accumulated, and any exception raised while
analysing a file is caught, logged and the scan continues. -/
def scanStep (th : Thresholds) (acc : List DesignSmell × List FileMetrics)
    (f : JavaFile) : List DesignSmell × List FileMetrics :=
  match analyzeFile th f with
  | Except.ok (sm, some m) => (acc.1 ++ sm, acc.2 ++ [m])
  | Except.ok (sm, none) => (acc.1 ++ sm, acc.2)
  | Except.error _ => acc

/-- `detector.scan_repository` over an already-enumerated file list. -/
def scanRepository (th : Thresholds) (files : List JavaFile) :
    List DesignSmell × List FileMetrics :=
  files.foldl (scanStep th) ([], [])

/-- One chunk produced by `detector._create_chunks`: the structured content of
the formatted `chunk_info` header (1-indexed start and end line, chunk number)
together with the window of lines (the code joins them with a newline into the
chunk text). -/
structure ChunkRec where
  startLine : Nat
  endLine : Nat
  chunkNum : Nat
  lines : List String
deriving DecidableEq, Repr

/-- The loop of `detector._create_chunks`, generalised over the window size
`W` (`CHUNK_SIZE`) and overlap `O` (`CHUNK_OVERLAP`): starting from index `i`,
`for i in range(0, len(lines), W - O)` emits the window `lines[i:i+W]` with
`end_line = min(i + W, len(lines))` and breaks once `end_line >= len(lines)`.
The hypothesis `O < W` mirrors Python's requirement of a positive range step. -/
def createChunksAux (W O : Nat) (hWO : O < W) (ls : List String) (i : Nat) :
    List ChunkRec :=
  if _hi : i < ls.length then
    ⟨i + 1, min (i + W) ls.length, i / (W - O) + 1, (ls.drop i).take W⟩ ::
      (if ls.length ≤ min (i + W) ls.length then []
       else createChunksAux W O hWO ls (i + (W - O)))
  else []
termination_by ls.length - i
decreasing_by omega

/-- `detector._create_chunks`, generalised over window and overlap. -/
def createChunks (W O : Nat) (hWO : O < W) (ls : List String) : List ChunkRec :=
  createChunksAux W O hWO ls 0

/-- Concatenate chunk line ranges with the overlap removed: the first chunk in
full, every later chunk with its first `O` lines dropped. -/
def dropOverlap (O : Nat) : List ChunkRec → List String
  | [] => []
  | c :: rest => c.lines ++ (rest.map (fun r => r.lines.drop O)).flatten

/-- Python `str.strip()` whitespace characters. -/
def isPySpace (c : Char) : Bool :=
  c = ' ' || c = '\t' || c = '\n' || c = '\r' || c = Char.ofNat 11 || c = Char.ofNat 12

/-- Python `str.strip()` on a character sequence. -/
def pyStripChars (cs : List Char) : List Char :=
  ((cs.dropWhile isPySpace).reverse.dropWhile isPySpace).reverse

/-- The response-cleaning prelude of `refactorer._parse_batch_response`:
strip, drop a leading markdown fence (first the 7 characters of a
 ```json fence, then a bare 3-character fence), drop a trailing fence,
strip again. -/
def cleanResponse (s : String) : List Char :=
  let c0 := pyStripChars s.toList
  let c1 := if ("```json").toList.isPrefixOf c0 then c0.drop 7 else c0
  let c2 := if ("```").toList.isPrefixOf c1 then c1.drop 3 else c1
  let c3 := if ("```").toList.isSuffixOf c2 then c2.take (c2.length - 3) else c2
  pyStripChars c3

/-- Look up a key in a parsed JSON object (Python `dict` access). -/
def jfind (fields : List (String × JValue)) (k : String) : Option JValue :=
  (fields.find? (fun f => decide (f.1 = k))).map Prod.snd

/-- Python `dict.get(k, default)`. -/
def jget (fields : List (String × JValue)) (k : String) (d : JValue) : JValue :=
  match jfind fields k with
  | some v => v
  | none => d

/-- Interpret a JSON value as a Python `int` where the source compares it with
integers (`smell_idx < 0` etc.): Python `bool` is an `int` subclass, anything
else makes the comparison raise `TypeError` (modelled by `none`). -/
def pyIntOf : JValue → Option Int
  | JValue.num n => some n
  | JValue.bool b => some (if b then 1 else 0)
  | _ => none

/-- `suggestion_data.get("smell_index", -1)` followed by its use in integer
comparisons: an absent key gives `-1`; a non-integer value means the
comparison raises `TypeError` (`none`). -/
def declaredIdx (f : List (String × JValue)) : Option Int :=
  match jfind f ("smell_index") with
  | none => some (-1)
  | some v => pyIntOf v

/-- Python `int(str)` on the fragment reachable from `_extract_code_around_smell`
(optional surrounding whitespace, optional sign, decimal digits). -/
def pyInt (cs : List Char) : Option Int :=
  match pyStripChars cs with
  | '+' :: ds =>
    if ds ≠ [] ∧ ds.all Char.isDigit then some (digitsToNat ds) else none
  | '-' :: ds =>
    if ds ≠ [] ∧ ds.all Char.isDigit then some (-(digitsToNat ds : Int)) else none
  | ds =>
    if ds ≠ [] ∧ ds.all Char.isDigit then some (digitsToNat ds) else none

/-- `refactorer._extract_code_around_smell`: parse a `"15-45"` or `"15"` line
range, widen by ten lines of context on each side, and slice; any parse
failure falls back to the first 100 lines. -/
def extractCodeAroundSmell (content lineRange : String) : String :=
  let lines := content.splitOn ("\n")
  let parsed : Option (Int × Int) :=
    if lineRange.toList.contains '-' then
      match (lineRange.splitOn ("-")).map (fun p => pyInt p.toList) with
      | [some a, some b] => some (a, b)
      | _ => none
    else (pyInt lineRange.toList).map (fun a => (a, a))
  match parsed with
  | none => ("\n").intercalate (lines.take 100)
  | some (st, en) =>
    let cs := (max 0 (st - 10)).toNat
    let ce := (min (lines.length : Int) (en + 10)).toNat
    ("\n").intercalate ((lines.drop cs).take (ce - cs))

/-- Placeholder smell used only to give `List.getD` a default; every lookup in
the development is performed at a proven in-range index. -/
def defaultSmell : DesignSmell := ⟨"", "", "", "", "", "", ""⟩

/-- `refactorer.RefactoringSuggestion`: the smell link is a reference to one
of the batch's smells; the JSON-derived fields keep their parsed values. -/
structure RefactoringSuggestion where
  smell : DesignSmell
  technique : JValue
  explanation : JValue
  original_code : String
  suggested_code : JValue
  changes_summary : JValue
  benefits : JValue
  risks : JValue

/-- Build one `RefactoringSuggestion` from a parsed suggestion object, as in
the body of the loop in `_parse_batch_response`.  The file system is the
explicit `readFile` input (`_read_file_content`, which returns the empty
string when reading fails). -/
def mkSuggestion (readFile : String → String) (smell : DesignSmell)
    (f : List (String × JValue)) : RefactoringSuggestion :=
  let content := readFile smell.file_path
  let snippet := if content = "" then ""
    else extractCodeAroundSmell content smell.line_range
  { smell := smell
    technique := jget f ("refactoring_technique") (jget f ("technique") (JValue.str ("Unknown")))
    explanation := jget f ("explanation") (JValue.str (""))
    original_code := String.mk (snippet.toList.take 500)
    suggested_code := jget f ("suggested_code") (JValue.str (""))
    changes_summary := jget f ("changes_summary") (JValue.arr [])
    benefits := jget f ("benefits") (JValue.arr [])
    risks := jget f ("potential_risks") (jget f ("risks") (JValue.arr [])) }

/-- The `for suggestion_data in result.get("suggestions", [])` loop of
`_parse_batch_response`.  A non-object element raises `AttributeError` at the
`.get` call; a non-integer `smell_index` raises `TypeError` at the comparison;
a declared index outside `[0, len(smells))` falls back to the positional index
`len(suggestions)`, and is skipped when that too is out of range. -/
def suggestionLoop (readFile : String → String) (smells : List DesignSmell) :
    List JValue → List RefactoringSuggestion → Except String (List RefactoringSuggestion)
  | [], acc => Except.ok acc
  | item :: rest, acc =>
    match item with
    | JValue.obj f =>
      match declaredIdx f with
      | none => Except.error ("TypeError")
      | some n =>
        if n < 0 ∨ (smells.length : Int) ≤ n then
          if smells.length ≤ acc.length then
            suggestionLoop readFile smells rest acc
          else
            suggestionLoop readFile smells rest
              (acc ++ [mkSuggestion readFile (smells.getD acc.length defaultSmell) f])
        else
          suggestionLoop readFile smells rest
            (acc ++ [mkSuggestion readFile (smells.getD n.toNat defaultSmell) f])
    | _ => Except.error ("AttributeError")

/-- `refactorer._parse_batch_response`: clean fences, `json.loads` (only
`JSONDecodeError` is caught, yielding the empty suggestion list), then iterate
`result.get("suggestions", [])`.  `Except.error` models an exception
propagating past the function: `result.get` on a non-dict raises
`AttributeError`; iterating a non-sequence raises `TypeError`; iterating a
non-empty string or dict yields str elements whose `.get` raises
`AttributeError`. -/
def parseBatchResponse (readFile : String → String) (responseText : String)
    (smells : List DesignSmell) : Except String (List RefactoringSuggestion) :=
  match jsonLoads (cleanResponse responseText) with
  | none => Except.ok []
  | some v =>
    match v with
    | JValue.obj fields =>
      match jget fields ("suggestions") (JValue.arr []) with
      | JValue.arr items => suggestionLoop readFile smells items []
      | JValue.str s =>
        if s.isEmpty then Except.ok [] else Except.error ("AttributeError")
      | JValue.obj fs =>
        if fs.isEmpty then Except.ok [] else Except.error ("AttributeError")
      | _ => Except.error ("TypeError")
    | _ => Except.error ("AttributeError")

/-- The index a suggestion is matched to, following the spec's words: a valid
declared `smell_index` is used; otherwise the suggestion at position `i` is
correlated positionally, and skipped when `i` is beyond the smell count. -/
def specIdxOf (smells : List DesignSmell) (n : Int) (i : Nat) : Option Nat :=
  if 0 ≤ n ∧ n < (smells.length : Int) then some n.toNat
  else if i < smells.length then some i else none

/-- Correlation of parsed suggestions to smells following the spec's words
(positional fallback against the batch's smell list, in order, skipping
positions beyond the available smell count); compared against
`suggestionLoop` in the claim C7 theorem. -/
def positionalCorrelate (readFile : String → String) (smells : List DesignSmell) :
    List (List (String × JValue)) → Nat → List RefactoringSuggestion
  | [], _ => []
  | f :: rest, i =>
    match declaredIdx f with
    | none => positionalCorrelate readFile smells rest (i + 1)
    | some n =>
      match specIdxOf smells n i with
      | some j =>
        mkSuggestion readFile (smells.getD j defaultSmell) f ::
          positionalCorrelate readFile smells rest (i + 1)
      | none => positionalCorrelate readFile smells rest (i + 1)

/-- `priority_order = {"HIGH": 0, "MEDIUM": 1, "LOW": 2}` with
`.get(severity, 3)` in `generate_suggestions`. -/
def priorityOrder (sev : String) : Nat :=
  if sev = "HIGH" then 0
  else if sev = "MEDIUM" then 1
  else if sev = "LOW" then 2
  else 3

/-- Stable insertion of an element into a key-sorted list: the new element
goes before the first element whose key is not smaller. -/
def insertByKey {α : Type} (key : α → Nat) (x : α) : List α → List α
  | [] => [x]
  | y :: ys => if key x ≤ key y then x :: y :: ys else y :: insertByKey key x ys

/-- Model of Python's stable `sorted(xs, key=key)`. -/
def sortByKey {α : Type} (key : α → Nat) : List α → List α
  | [] => []
  | x :: xs => insertByKey key x (sortByKey key xs)

/-- One smell entry of `_build_batch_prompt` (`--- Smell #i ---` blocks with
the snippet truncated to 800 characters). -/
def smellEntry (readFile : String → String) (idx : Nat) (s : DesignSmell) : String :=
  let content := readFile s.file_path
  let snippet0 := if content = "" then "(code unavailable)"
    else extractCodeAroundSmell content s.line_range
  let snippet := if 800 < snippet0.length then
      String.mk (snippet0.toList.take 800) ++ "\n// ... truncated ..."
    else snippet0
  "--- Smell #" ++ toString idx ++ " ---\n" ++
  "Type: " ++ s.smell_type ++ "\n" ++
  "File: " ++ s.file_path ++ "\n" ++
  "Location: " ++ s.location ++ "\n" ++
  "Line Range: " ++ s.line_range ++ "\n" ++
  "Severity: " ++ s.severity ++ "\n" ++
  "Description: " ++ s.description ++ "\n" ++
  "Code:\n```java\n" ++ snippet ++ "\n```\n"

/-- The part of `prompts.BATCH_REFACTORING_PROMPT` before `{smells_data}`. -/
def batchPromptHead : String :=
  "You are an expert software engineer. You are given a list of design smells detected in a Java codebase. For each smell, you are provided the smell metadata and the relevant code snippet.\n\nAnalyze ALL the smells below and provide a refactoring suggestion for EACH one. Your suggestions should:\n1. Preserve the original functionality\n2. Improve the design\n3. Follow SOLID principles\n4. Use appropriate design patterns if applicable\n\nDESIGN SMELLS TO ADDRESS:\n"

/-- The part of `prompts.BATCH_REFACTORING_PROMPT` after `{smells_data}`
(braces of the JSON example written by code point). -/
def batchPromptTail : String :=
  "\n\nRespond ONLY with valid JSON (no markdown, no extra text). Return a JSON object with a \"suggestions\" array containing one entry per smell:\n\x7b\n    \"suggestions\": [\n        \x7b\n            \"smell_index\": 0,\n            \"refactoring_technique\": \"technique name (e.g., Extract Method, Extract Class)\",\n            \"explanation\": \"why this refactoring helps\",\n            \"suggested_code\": \"the refactored code\",\n            \"changes_summary\": [\n                \"list of specific changes made\"\n            ],\n            \"benefits\": [\n                \"list of benefits from this refactoring\"\n            ],\n            \"potential_risks\": [\n                \"any risks or considerations\"\n            ]\n        \x7d\n    ]\n\x7d\n"

/-- `prompts.BATCH_REFACTORING_PROMPT.format(smells_data=...)`. -/
def BATCH_REFACTORING_PROMPT (smellsData : String) : String :=
  batchPromptHead ++ smellsData ++ batchPromptTail

/-- `refactorer._build_batch_prompt`. -/
def buildBatchPrompt (readFile : String → String) (smells : List DesignSmell) : String :=
  BATCH_REFACTORING_PROMPT
    (("\n").intercalate (smells.enum.map (fun ia => smellEntry readFile ia.1 ia.2)))

/-- `refactorer.generate_suggestions` on a freshly constructed refactorer
(`self.suggestions = []`).  The completion service is the explicit `api`
input (`_call_gemini_api`; `none` models the retries-exhausted `None`
result).  Returns the number of API calls made, the smells submitted in the
single batch request, and the resulting suggestions (`Except.error` models an
exception propagating out of response parsing). -/
def generateSuggestions (api : String → Option String) (readFile : String → String)
    (smells : List DesignSmell) (maxSuggestions : Nat) :
    Nat × List DesignSmell × Except String (List RefactoringSuggestion) :=
  let sortedSm := sortByKey (fun s => priorityOrder s.severity) smells
  let toProcess := sortedSm.take maxSuggestions
  if toProcess.isEmpty then (0, toProcess, Except.ok [])
  else
    match api (buildBatchPrompt readFile toProcess) with
    | none => (1, toProcess, Except.ok [])
    | some text => (1, toProcess, parseBatchResponse readFile text toProcess)

end Pipeline

namespace Scripts

open PyJson

/-- `scripts/refactor_pipeline.DesignSmell`. -/
structure DesignSmell where
  file : String
  smell_type : String
  description : String
  line_start : Nat
  line_end : Nat
  severity : String
deriving DecidableEq, Repr

/-- `MAX_CHARS_PER_BATCH` from `scripts/refactor_pipeline.py`. -/
def MAX_CHARS_PER_BATCH : Nat := 32000

/-- `GROQ_MODELS` from `scripts/refactor_pipeline.py`. -/
def GROQ_MODELS : List String := ["llama-3.3-70b-versatile", "llama-3.1-8b-instant"]

/-- `MAX_RETRIES` from `scripts/refactor_pipeline.py`. -/
def MAX_RETRIES : Nat := 3

/-- `RETRY_BASE_DELAY` (seconds) from `scripts/refactor_pipeline.py`. -/
def RETRY_BASE_DELAY : Nat := 30

/-- The `\n// === FILE: <path> ===\n<content>\n` block of
`build_module_prompt`. -/
def fileBlock (p c : String) : String :=
  "\n// === FILE: " ++ p ++ " ===\n" ++ c ++ "\n"

/-- `file_size = len(file_block)` in `build_module_prompt`. -/
def fileSize (p c : String) : Nat := (fileBlock p c).length

/-- The greedy packing loop of `build_module_prompt`: an item larger than the
available budget flushes the current batch and becomes a singleton batch; an
item that would overflow the current batch flushes it and starts a new one;
otherwise the item joins the current batch.  The trailing non-empty batch is
flushed after the scan. -/
def packFiles (available : Nat) :
    List (String × String) → List (String × String) → Nat →
      List (List (String × String))
  | [], cur, _ => if cur.isEmpty then [] else [cur]
  | (p, c) :: rest, cur, curSize =>
    let fs := fileSize p c
    if available < fs then
      (if cur.isEmpty then [] else [cur]) ++ [(p, c)] :: packFiles available rest [] 0
    else if available < curSize + fs then
      cur :: packFiles available rest [(p, c)] fs
    else
      packFiles available rest (cur ++ [(p, c)]) (curSize + fs)

/-- The batch list produced by `build_module_prompt` for a given available
budget (`MAX_CHARS_PER_BATCH - system_chars`) and item sequence. -/
def buildBatches (available : Nat) (items : List (String × String)) :
    List (List (String × String)) :=
  packFiles available items [] 0

/-- Total character size a batch contributes (sum of its file blocks). -/
def batchSize (b : List (String × String)) : Nat :=
  (b.map (fun pc => fileSize pc.1 pc.2)).sum

/-- One numbered line of `_format_smell_report`. -/
def smellReportLine (i : Nat) (s : DesignSmell) : String :=
  toString i ++ ". [" ++ s.severity.toUpper ++ "] " ++ s.smell_type ++ " in " ++
    s.file ++ " (lines " ++ toString s.line_start ++ "-" ++ toString s.line_end ++
    "): " ++ s.description

/-- `LLMRefactorer._format_smell_report`. -/
def formatSmellReport (smells : List DesignSmell) : String :=
  if smells.isEmpty then "No design smells detected."
  else ("\n").intercalate (smells.enum.map (fun is => smellReportLine (is.1 + 1) is.2))

/-- `batch_smells = [s for s in smells if s.file in batch_file_set]` in
`build_module_prompt`. -/
def linkedSmells (smells : List DesignSmell) (batch : List (String × String)) :
    List DesignSmell :=
  smells.filter (fun s => decide (s.file ∈ batch.map Prod.fst))

/-- The smell report attached to one batch: the matching smells if any,
otherwise the full global report (`... if batch_smells else smell_report`). -/
def batchSmellReport (smells : List DesignSmell) (smellReport : String)
    (batch : List (String × String)) : String :=
  let bs := linkedSmells smells batch
  if bs.isEmpty then smellReport else formatSmellReport bs

/-- Stable insertion for Python tuple ordering on `(path, content)` pairs. -/
def pairInsert (x : String × String) :
    List (String × String) → List (String × String)
  | [] => [x]
  | y :: ys =>
    if x.1 < y.1 ∨ (x.1 = y.1 ∧ x.2 ≤ y.2) then x :: y :: ys else y :: pairInsert x ys

/-- Model of Python `sorted` on `(path, content)` pairs
(`sorted(file_contents.items())` and `sorted(batch_files.items())`). -/
def sortPairs : List (String × String) → List (String × String)
  | [] => []
  | x :: xs => pairInsert x (sortPairs xs)

/-- The prompt built for one batch in `build_module_prompt`. -/
def promptForBatch (systemInstruction smellReport : String)
    (smells : List DesignSmell) (batch : List (String × String)) : String :=
  let codeBlock := String.join ((sortPairs batch).map (fun pc => fileBlock pc.1 pc.2))
  systemInstruction ++ "\n\n--- SOURCE CODE ---\n" ++ codeBlock ++
    "\n\n--- SMELL REPORT ---\n" ++ batchSmellReport smells smellReport batch

/-- `LLMRefactorer.build_module_prompt`: read files (already given as
`(rel_path, content)` pairs), compute the available budget from the system
instruction and global smell report, pack greedily, and render one prompt per
batch.  The system instruction is the fixed source template applied to the
module name; it enters the logic only through its text and length, so it is
taken as an input here. -/
def buildModulePrompts (systemInstruction : String)
    (fileContents : List (String × String)) (smells : List DesignSmell) :
    List String :=
  let smellReport := formatSmellReport smells
  let systemChars := systemInstruction.length + smellReport.length + 100
  let available := MAX_CHARS_PER_BATCH - systemChars
  (buildBatches available (sortPairs fileContents)).map
    (promptForBatch systemInstruction smellReport smells)

/-- Outcome of one `client.chat.completions.create` call inside
`LLMRefactorer.refactor`: either the response text or a raised exception with
its message. -/
inductive ApiResult where
  | ok (text : String) : ApiResult
  | err (msg : String) : ApiResult

/-- The rate-limit vocabulary tested by `refactor`. -/
def rateLimitKeywords : List String :=
  ["rate limit", "resource exhausted", "quota", "429", "too many requests"]

/-- Python substring containment (`needle in hay`) on character sequences. -/
def charsContain (needle : List Char) : List Char → Bool
  | [] => needle.isEmpty
  | c :: rest => needle.isPrefixOf (c :: rest) || charsContain needle rest

/-- Python `str.lower()` on one character (the ASCII range, which covers the
error messages classified here). -/
def pyLowerChar (c : Char) : Char :=
  if 65 ≤ c.toNat ∧ c.toNat ≤ 90 then Char.ofNat (c.toNat + 32) else c

/-- `is_rate_limit = any(kw in str(e).lower() for kw in [...])`. -/
def isRateLimitError (msg : String) : Bool :=
  rateLimitKeywords.any (fun kw => charsContain kw.toList (msg.toList.map pyLowerChar))

/-- The retry loop `for attempt in range(MAX_RETRIES + 1)` of
`LLMRefactorer.refactor` for one batch, driven by the list of per-attempt call
outcomes.  On a rate-limit error with an untried fallback model the loop
`continue`s with the next model — which advances the `for` counter — and on a
rate-limit error with no fallback left it sleeps `base_delay * 2 ** attempt`
(accumulated in the third component) before the next attempt; any other error
breaks immediately.  Returns the response (`none` when the loop ends without
one), the final active model index, and the total backoff delay slept. -/
def callWithRetry (models : List String) (maxRetries baseDelay : Nat) :
    List ApiResult → Nat → Nat → Nat → Option String × Nat × Nat
  | script, attempt, modelIdx, delay =>
    if maxRetries < attempt then (none, modelIdx, delay)
    else
      match script with
      | [] => (none, modelIdx, delay)
      | ApiResult.ok t :: _ => (some t, modelIdx, delay)
      | ApiResult.err m :: rest =>
        if isRateLimitError m then
          if modelIdx < models.length - 1 then
            callWithRetry models maxRetries baseDelay rest (attempt + 1) (modelIdx + 1) delay
          else if attempt < maxRetries then
            callWithRetry models maxRetries baseDelay rest (attempt + 1) modelIdx
              (delay + baseDelay * 2 ^ attempt)
          else (none, modelIdx, delay)
        else (none, modelIdx, delay)

end Scripts

/-! Concrete inputs used by witness and counterexample theorems. -/

/-- A file system on which every read fails (`_read_file_content` returns the
empty string). -/
def rfConst : String → String := fun _ => ""

/-- A completion service that never returns a response. -/
def apiNone : String → Option String := fun _ => none

/-- A batch response whose two suggestion objects both declare
`smell_index` 0 (braces written by code point). -/
def rawDoubleIndex : String :=
  "\x7b\"suggestions\": [\x7b\"smell_index\": 0\x7d, \x7b\"smell_index\": 0\x7d]\x7d"

/-- A batch response with a single suggestion object declaring
`smell_index` 0. -/
def rawSingleIndex : String :=
  "\x7b\"suggestions\": [\x7b\"smell_index\": 0\x7d]\x7d"

/-- A response that is not JSON at all. -/
def rawNotJson : String := "this response is not json"

/-- A sample detector smell record. -/
def sampleSmell : Pipeline.DesignSmell :=
  ⟨"Large Class", "A.java", "A", "1-10", "HIGH", "big", "static"⟩

/-- The parsed fields of one `{"smell_index": 0}` suggestion object. -/
def fieldsIdx0 : List (String × PyJson.JValue) :=
  [("smell_index", PyJson.JValue.num 0)]

/-- Suggestion objects for the positional-correlation instance: one with an
out-of-range declared index and one with the key absent. -/
def itemsPositional : List (List (String × PyJson.JValue)) :=
  [[("smell_index", PyJson.JValue.num 5)], []]

/-- The smell list `_static_analysis` produces for `fileOk600`. -/
def smW600 : List Pipeline.DesignSmell :=
  [Pipeline.largeClassSmell "Big.java" "Big" 600]

/-- The metrics `_static_analysis` produces for `fileOk600`. -/
def mW600 : Pipeline.FileMetrics := ⟨"Big.java", 600, 0, 0, 0, 0, 0⟩

/-- A 600-line file that the external parser accepts. -/
def fileOk600 : Pipeline.JavaFile := ⟨"Big.java", "Big", Except.ok [], 600⟩

/-- A small file that the external parser accepts. -/
def fileOk10 : Pipeline.JavaFile := ⟨"Small.java", "Small", Except.ok [], 10⟩

/-- A 400-line file on which the external parser raises an exception that is
not a `JavaSyntaxError`. -/
def fileBad : Pipeline.JavaFile :=
  ⟨"Bad.java", "Bad", Except.error "LexerError", 400⟩

/-- A five-line content sample. -/
def lsFive : List String := ["a", "b", "c", "d", "e"]

/-- A rate-limit-shaped error message. -/
def rlMsg : String := "429 Too Many Requests"

/-- Two rate-limit errors followed by a success. -/
def scriptTwoRL : List Scripts.ApiResult :=
  [Scripts.ApiResult.err rlMsg, Scripts.ApiResult.err rlMsg, Scripts.ApiResult.ok "done"]

/-- A sample scripts-side smell record for `A.java`. -/
def sW : Scripts.DesignSmell := ⟨"A.java", "Large Class", "big", 1, 10, "high"⟩

/-- A one-item batch holding `A.java`. -/
def bW : List (String × String) := [("A.java", "x")]

/-! ## Theorems -/

section C1Helpers

open Scripts

/-- Flattening the batches produced by the packing loop restores the pending
batch followed by the remaining items, in order. -/
theorem packFiles_flatten (available : Nat) :
    ∀ (items cur : List (String × String)) (curSize : Nat),
      (packFiles available items cur curSize).flatten = cur ++ items := by
  intro items
  induction items with
  | nil =>
    intro cur _
    cases cur <;> simp [packFiles]
  | cons pc rest ih =>
    intro cur curSize
    obtain ⟨p, c⟩ := pc
    by_cases h1 : available < fileSize p c
    · cases cur <;> simp [packFiles, h1, ih]
    · by_cases h2 : available < curSize + fileSize p c
      · simp [packFiles, h1, h2, ih]
      · simp [packFiles, h1, h2, ih]

/-- Size invariant of the packing loop: as long as the pending batch fits the
budget, every emitted batch either fits the budget or is a singleton holding
an item that alone exceeds it. -/
theorem packFiles_size (available : Nat) :
    ∀ (items cur : List (String × String)) (curSize : Nat),
      curSize = batchSize cur → curSize ≤ available →
      ∀ b ∈ packFiles available items cur curSize,
        batchSize b ≤ available ∨ ∃ p c, b = [(p, c)] ∧ available < fileSize p c := by
  intro items
  induction items with
  | nil =>
    intro cur curSize hsz hle b hb
    by_cases hc : cur.isEmpty <;> simp [packFiles, hc] at hb
    subst hb
    exact Or.inl (hsz ▸ hle)
  | cons pc rest ih =>
    intro cur curSize hsz hle b hb
    obtain ⟨p, c⟩ := pc
    by_cases h1 : available < fileSize p c
    · simp only [packFiles, if_pos h1] at hb
      rcases List.mem_append.mp hb with hb | hb
      · have hcur : b = cur := by
          by_cases hc : cur.isEmpty <;> simp [hc] at hb
          · exact hb
        exact Or.inl (hcur ▸ hsz ▸ hle)
      · rcases List.mem_cons.mp hb with hb | hb
        · exact Or.inr ⟨p, c, hb, h1⟩
        · exact ih [] 0 (by simp [batchSize]) (Nat.zero_le _) b hb
    · by_cases h2 : available < curSize + fileSize p c
      · simp only [packFiles, if_neg h1, if_pos h2] at hb
        rcases List.mem_cons.mp hb with hb | hb
        · exact Or.inl (hb ▸ hsz ▸ hle)
        · exact ih [(p, c)] (fileSize p c) (by simp [batchSize]) (Nat.le_of_not_lt h1) b hb
      · simp only [packFiles, if_neg h1, if_neg h2] at hb
        refine ih (cur ++ [(p, c)]) (curSize + fileSize p c) ?_ (Nat.le_of_not_lt h2) b hb
        simp [batchSize, hsz]

end C1Helpers

/-- C1: for every item sequence and every available character budget, the
greedy packing of `build_module_prompt` partitions the input exactly — the
concatenation of the produced batches is the input sequence itself, so the
multiset union of items equals the input multiset — and every produced batch
fits the available budget except a singleton batch whose sole item alone
exceeds it. -/
theorem c1_batch_partition (available : Nat) (items : List (String × String)) :
    (Scripts.buildBatches available items).flatten = items ∧
    ∀ b ∈ Scripts.buildBatches available items,
      Scripts.batchSize b ≤ available ∨
        ∃ p c, b = [(p, c)] ∧ available < Scripts.fileSize p c := by
  constructor
  · simpa using packFiles_flatten available items [] 0
  · exact packFiles_size available items [] 0 (by simp [Scripts.batchSize]) (Nat.zero_le _)

/-- Witness for C1 at a concrete input: two small files pack into one batch
that satisfies the size bound. -/
theorem c1_batch_partition_witness :
    (Scripts.buildBatches 100 [("a", "x"), ("b", "y")]).flatten =
        [("a", "x"), ("b", "y")] ∧
      (Scripts.batchSize [("a", "x"), ("b", "y")] ≤ 100 ∨
        ∃ p c, ([("a", "x"), ("b", "y")] : List (String × String)) = [(p, c)] ∧
          100 < Scripts.fileSize p c) := by
  exact ⟨(c1_batch_partition 100 [("a", "x"), ("b", "y")]).1,
    (c1_batch_partition 100 [("a", "x"), ("b", "y")]).2
      [("a", "x"), ("b", "y")] (by decide)⟩

/-- C2 counterexample: on the two-model roster, a call that receives two
rate-limit errors and then a success ends in success but with a non-zero
total backoff delay of `30 * 2 ^ 1 = 60` seconds — the first rate-limit error
consumes the single fallback model (and the `continue` advances the attempt
counter of the `for` loop), so the second rate-limit error has no fallback
left and must back off. -/
theorem c2_no_backoff_counterexample :
    Scripts.callWithRetry Scripts.GROQ_MODELS Scripts.MAX_RETRIES
        Scripts.RETRY_BASE_DELAY scriptTwoRL 0 0 0 = (some "done", 1, 60) ∧
      (60 : Nat) ≠ 0 :=
  ⟨by decide, by decide⟩

/-- C2 (amended): when a rate-limit-shaped error occurs and an untried
fallback model remains, the caller switches to it and retries immediately
with no delay added at that transition — but the attempt counter still
advances, because the `continue` moves the `for` loop on; consequently, for a
call receiving two rate-limit errors then a success on the two-model roster,
one backoff delay of `base_delay * 2 ^ 1 = 60` seconds is incurred and the
final outcome is success. -/
theorem c2_model_fallback_amended :
    (∀ (models : List String) (maxR baseD : Nat) (m : String)
        (rest : List Scripts.ApiResult) (attempt idx delay : Nat),
        Scripts.isRateLimitError m = true → idx < models.length - 1 →
        attempt ≤ maxR →
        Scripts.callWithRetry models maxR baseD
            (Scripts.ApiResult.err m :: rest) attempt idx delay =
          Scripts.callWithRetry models maxR baseD rest (attempt + 1) (idx + 1) delay) ∧
    Scripts.callWithRetry Scripts.GROQ_MODELS Scripts.MAX_RETRIES
      Scripts.RETRY_BASE_DELAY scriptTwoRL 0 0 0 = (some "done", 1, 60) := by
  constructor
  · intro models maxR baseD m rest attempt idx delay h1 h2 h3
    rw [Scripts.callWithRetry]
    simp [Nat.not_lt.mpr h3, h1, h2]
  · decide

/-- Witness for the amended C2 fallback step at a concrete input. -/
theorem c2_model_fallback_amended_witness :
    Scripts.callWithRetry Scripts.GROQ_MODELS 3 30
        [Scripts.ApiResult.err rlMsg, Scripts.ApiResult.ok "x"] 0 0 0 =
      Scripts.callWithRetry Scripts.GROQ_MODELS 3 30 [Scripts.ApiResult.ok "x"] 1 1 0 :=
  c2_model_fallback_amended.1 Scripts.GROQ_MODELS 3 30 rlMsg
    [Scripts.ApiResult.ok "x"] 0 0 0 (by decide) (by decide) (by decide)

section C3Helpers

open Pipeline

/-- Every record appended during the node walk of `_static_analysis` is a
God Class or a Long Parameter List record. -/
theorem foldl_visitNode_types (th : Thresholds) (relPath : String) :
    ∀ (nodes : List JNode) (st : ScanState),
      (∀ s ∈ st.smells,
        s.smell_type = "God Class" ∨ s.smell_type = "Long Parameter List") →
      ∀ s ∈ (nodes.foldl (visitNode th relPath) st).smells,
        s.smell_type = "God Class" ∨ s.smell_type = "Long Parameter List" := by
  intro nodes
  induction nodes with
  | nil => intro st hst; simpa using hst
  | cons n rest ih =>
    intro st hst
    refine ih (visitNode th relPath st n) ?_
    intro s hs
    cases n with
    | classDecl name methods fields pos =>
      simp only [visitNode] at hs
      split at hs
      · rcases List.mem_append.mp hs with h | h
        · exact hst s h
        · simp only [List.mem_singleton] at h
          exact Or.inl (h ▸ rfl)
      · exact hst s hs
    | methodDecl name params body pos =>
      simp only [visitNode] at hs
      rcases body with _ | bl <;> simp only at hs <;>
      · split at hs
        · rcases List.mem_append.mp hs with h | h
          · exact hst s h
          · simp only [List.mem_singleton] at h
            exact Or.inr (h ▸ rfl)
        · exact hst s hs
    | other => exact hst s hs

end C3Helpers

/-- C3: for every thresholds configuration and every file accepted by the
external parser, `_static_analysis` emits a Large Class record iff the file's
line count strictly exceeds `max_lines`, and that record's severity is HIGH
iff the line count is at least 500 (so including the boundary case of exactly
500 lines) and MEDIUM otherwise. -/
theorem c3_large_class (th : Pipeline.Thresholds) (f : Pipeline.JavaFile)
    (nodes : List Pipeline.JNode) (sm : List Pipeline.DesignSmell)
    (m : Option Pipeline.FileMetrics)
    (hp : f.parseResult = Except.ok nodes)
    (hr : Pipeline.staticAnalysis th f = Except.ok (sm, m)) :
    ((∃ s ∈ sm, s.smell_type = "Large Class") ↔ th.largeMaxLines < f.numLines) ∧
    ∀ s ∈ sm, s.smell_type = "Large Class" →
      (s.severity = "HIGH" ↔ 500 ≤ f.numLines) ∧
      (s.severity = "MEDIUM" ↔ f.numLines < 500) := by
  simp only [Pipeline.staticAnalysis, hp] at hr
  obtain ⟨hsm, -⟩ := Prod.mk.injEq .. ▸ (Except.ok.injEq _ _ ▸ hr)
  have htypes := foldl_visitNode_types th f.relPath nodes ⟨[], 0, 0, 0, 0, 0⟩
    (by intro s hs; simp at hs)
  constructor
  · constructor
    · rintro ⟨s, hs, htype⟩
      rw [← hsm] at hs
      rcases List.mem_append.mp hs with h | h
      · rcases htypes s h with h' | h' <;> rw [htype] at h' <;> exact absurd h' (by decide)
      · by_cases hbig : th.largeMaxLines < f.numLines
        · exact hbig
        · simp [hbig] at h
    · intro hbig
      refine ⟨Pipeline.largeClassSmell f.relPath f.stem f.numLines, ?_, rfl⟩
      rw [← hsm]
      exact List.mem_append.mpr (Or.inr (by simp [hbig]))
  · intro s hs htype
    rw [← hsm] at hs
    rcases List.mem_append.mp hs with h | h
    · rcases htypes s h with h' | h' <;> rw [htype] at h' <;> exact absurd h' (by decide)
    · have hrec : s = Pipeline.largeClassSmell f.relPath f.stem f.numLines := by
        by_cases hbig : th.largeMaxLines < f.numLines <;> simp [hbig] at h
        · exact h
      rw [hrec]
      by_cases h500 : f.numLines < 500 <;>
        (simp [Pipeline.largeClassSmell, h500]; try omega)

/-- Witness for C3 at a concrete input: a 600-line parsed file yields exactly
one Large Class record and its severity is HIGH. -/
theorem c3_large_class_witness :
    ((∃ s ∈ smW600, s.smell_type = "Large Class") ↔
        Pipeline.defaultThresholds.largeMaxLines < fileOk600.numLines) ∧
    ∀ s ∈ smW600, s.smell_type = "Large Class" →
      (s.severity = "HIGH" ↔ 500 ≤ fileOk600.numLines) ∧
      (s.severity = "MEDIUM" ↔ fileOk600.numLines < 500) :=
  c3_large_class Pipeline.defaultThresholds fileOk600 [] smW600 (some mW600) rfl rfl

section C4Helpers

open Pipeline

/-- Dropping the overlap from a window slice leaves the slice that starts
after the overlap. -/
theorem window_drop_overlap (ls : List String) (i W O : Nat) (hO : O ≤ W) :
    ((ls.drop i).take W).drop O = (ls.drop (i + O)).take (W - O) := by
  have hiO : i + O + (W - O) = i + W := by omega
  rw [List.take_drop, List.drop_drop, List.take_drop, hiO]

/-- Tail-assembly lemma: from any in-range start index, mapping the overlap
drop over the produced chunks and flattening yields the suffix of the content
that starts `O` lines into the window. -/
theorem createChunksAux_assemble (W O : Nat) (h : O < W) (ls : List String) :
    ∀ k i, ls.length - i ≤ k → i < ls.length →
      ((createChunksAux W O h ls i).map (fun r => r.lines.drop O)).flatten =
        ls.drop (i + O) := by
  intro k
  induction k with
  | zero => intro i hk hi; omega
  | succ k ih =>
    intro i hk hi
    rw [createChunksAux, dif_pos hi]
    by_cases hend : ls.length ≤ min (i + W) ls.length
    · rw [if_pos hend]
      have hn : ls.length ≤ i + W := by omega
      simp only [List.map_cons, List.map_nil, List.flatten_cons, List.flatten_nil,
        List.append_nil]
      rw [window_drop_overlap ls i W O (Nat.le_of_lt h)]
      exact List.take_of_length_le (by simp; omega)
    · rw [if_neg hend]
      have hn : i + W < ls.length := by omega
      simp only [List.map_cons, List.flatten_cons]
      rw [window_drop_overlap ls i W O (Nat.le_of_lt h),
        ih (i + (W - O)) (by omega) (by omega)]
      have : ls.drop (i + (W - O) + O) = (ls.drop (i + O)).drop (W - O) := by
        rw [List.drop_drop]; congr 1; omega
      rw [this, List.take_append_drop]

/-- Every produced chunk has non-empty content, and its end line is the
window end clamped to the content length. -/
theorem createChunksAux_mem (W O : Nat) (h : O < W) (ls : List String) :
    ∀ k i, ls.length - i ≤ k →
      ∀ c ∈ createChunksAux W O h ls i,
        c.lines ≠ [] ∧ c.endLine = min (c.startLine - 1 + W) ls.length := by
  intro k
  induction k with
  | zero =>
    intro i hk c hc
    rw [createChunksAux, dif_neg (by omega)] at hc
    simp at hc
  | succ k ih =>
    intro i hk c hc
    rw [createChunksAux] at hc
    by_cases hi : i < ls.length
    · rw [dif_pos hi] at hc
      rcases List.mem_cons.mp hc with hc | hc
      · subst hc
        constructor
        · intro hnil
          have hlen := congrArg List.length hnil
          simp at hlen
          omega
        · dsimp only
          omega
      · split at hc
        · simp at hc
        · exact ih (i + (W - O)) (by omega) c hc
    · rw [dif_neg hi] at hc
      simp at hc

/-- Consecutive chunk start lines advance by exactly the window stride. -/
theorem createChunksAux_chain (W O : Nat) (h : O < W) (ls : List String) :
    ∀ k i, ls.length - i ≤ k →
      List.Chain' (fun a b => b.startLine = a.startLine + (W - O))
        (createChunksAux W O h ls i) := by
  intro k
  induction k with
  | zero =>
    intro i hk
    rw [createChunksAux, dif_neg (by omega)]
    exact List.chain'_nil
  | succ k ih =>
    intro i hk
    rw [createChunksAux]
    by_cases hi : i < ls.length
    · rw [dif_pos hi]
      by_cases hend : ls.length ≤ min (i + W) ls.length
      · rw [if_pos hend]
        exact List.chain'_singleton _
      · rw [if_neg hend]
        refine List.chain'_cons'.mpr ⟨?_, ih (i + (W - O)) (by omega)⟩
        intro y hy
        have hi' : i + (W - O) < ls.length := by omega
        rw [createChunksAux, dif_pos hi'] at hy
        simp only [List.head?_cons, Option.mem_def, Option.some.injEq] at hy
        subst hy
        dsimp only
        omega
    · rw [dif_neg hi]
      exact List.chain'_nil

end C4Helpers

/-- C4: for every content and all `window_lines > overlap_lines >= 0`, the
chunker's windows reconstruct the content exactly when concatenated with the
overlap removed, every emitted chunk is non-empty (no redundant trailing
empty chunk), consecutive window starts advance by
`window_lines - overlap_lines`, and each chunk's end line is the window end
clamped to the content length. -/
theorem c4_chunker_roundtrip (W O : Nat) (h : O < W) (ls : List String) :
    Pipeline.dropOverlap O (Pipeline.createChunks W O h ls) = ls ∧
    (∀ c ∈ Pipeline.createChunks W O h ls, c.lines ≠ []) ∧
    List.Chain' (fun a b => b.startLine = a.startLine + (W - O))
      (Pipeline.createChunks W O h ls) ∧
    ∀ c ∈ Pipeline.createChunks W O h ls,
      c.endLine = min (c.startLine - 1 + W) ls.length := by
  refine ⟨?_, fun c hc => (createChunksAux_mem W O h ls ls.length 0 (by omega) c hc).1,
    createChunksAux_chain W O h ls ls.length 0 (by omega),
    fun c hc => (createChunksAux_mem W O h ls ls.length 0 (by omega) c hc).2⟩
  rw [Pipeline.createChunks, Pipeline.createChunksAux]
  by_cases h0 : 0 < ls.length
  · rw [dif_pos h0]
    by_cases hend : ls.length ≤ min (0 + W) ls.length
    · rw [if_pos hend]
      simp only [Pipeline.dropOverlap, List.map_nil, List.flatten_nil, List.append_nil]
      exact List.take_of_length_le (by simp; omega)
    · rw [if_neg hend]
      simp only [Pipeline.dropOverlap]
      rw [createChunksAux_assemble W O h ls ls.length (0 + (W - O)) (by omega) (by omega)]
      have : ls.drop (0 + (W - O) + O) = ls.drop W := by congr 1; omega
      rw [this]
      simp
  · rw [dif_neg h0]
    have : ls = [] := List.length_eq_zero.mp (by omega)
    rw [this]
    rfl

/-- Witness for C4 at a concrete input: window 3, overlap 1 on five lines. -/
theorem c4_chunker_roundtrip_witness :
    Pipeline.dropOverlap 1 (Pipeline.createChunks 3 1 (by decide) lsFive) = lsFive ∧
    (∀ c ∈ Pipeline.createChunks 3 1 (by decide) lsFive, c.lines ≠ []) ∧
    List.Chain' (fun a b => b.startLine = a.startLine + (3 - 1))
      (Pipeline.createChunks 3 1 (by decide) lsFive) ∧
    ∀ c ∈ Pipeline.createChunks 3 1 (by decide) lsFive,
      c.endLine = min (c.startLine - 1 + 3) lsFive.length :=
  c4_chunker_roundtrip 3 1 (by decide) lsFive

/-- C5 counterexample: the input string `[]` decodes to valid JSON that is
not an object, and `_parse_batch_response` raises `AttributeError` at
`result.get` instead of returning an empty sequence — the only exception the
function catches is `json.JSONDecodeError`. -/
theorem c5_never_raises_counterexample :
    Pipeline.parseBatchResponse rfConst ("[]") [] = Except.error ("AttributeError") ∧
    (Except.error ("AttributeError") :
        Except String (List Pipeline.RefactoringSuggestion)) ≠ Except.ok [] :=
  ⟨rfl, fun hcontra => Except.noConfusion hcontra⟩

/-- C5 (amended): on any input whose cleaned text fails to decode as JSON
(the `json.JSONDecodeError` case — non-JSON or truncated JSON), the parser
reports and returns the empty suggestion sequence without raising, for every
smell list and file system.  Inputs that decode to valid JSON that is not an
object are outside this guarantee: there the subsequent attribute access
raises past the boundary, as the counterexample shows. -/
theorem c5_decode_failure_amended (readFile : String → String) (raw : String)
    (smells : List Pipeline.DesignSmell)
    (h : PyJson.jsonLoads (Pipeline.cleanResponse raw) = none) :
    Pipeline.parseBatchResponse readFile raw smells = Except.ok [] := by
  simp [Pipeline.parseBatchResponse, h]

/-- Witness for the amended C5 at a concrete non-JSON input. -/
theorem c5_decode_failure_amended_witness :
    Pipeline.parseBatchResponse rfConst rawNotJson [] = Except.ok [] :=
  c5_decode_failure_amended rfConst rawNotJson [] rfl

section C6Helpers

open Pipeline PyJson

/-- A default-valued list lookup at a proven in-range index is a member. -/
theorem getD_mem_of_lt {α : Type} (l : List α) (d : α) (j : Nat)
    (h : j < l.length) : l.getD j d ∈ l := by
  rw [List.getD_eq_getElem l d h]
  exact List.getElem_mem h

/-- Every suggestion produced by the parsing loop links to a smell of the
batch's smell list (given that the accumulator already does). -/
theorem suggestionLoop_smell_mem (readFile : String → String)
    (smells : List DesignSmell) :
    ∀ (items : List JValue) (acc suggs : List RefactoringSuggestion),
      (∀ r ∈ acc, r.smell ∈ smells) →
      suggestionLoop readFile smells items acc = Except.ok suggs →
      ∀ r ∈ suggs, r.smell ∈ smells := by
  intro items
  induction items with
  | nil =>
    intro acc suggs hacc heq r hr
    simp only [suggestionLoop, Except.ok.injEq] at heq
    exact hacc r (heq ▸ hr)
  | cons item rest ih =>
    intro acc suggs hacc heq r hr
    cases item with
    | obj f =>
      simp only [suggestionLoop] at heq
      rcases hdi : declaredIdx f with - | n
      · rw [hdi] at heq
        exact absurd heq (by simp)
      · rw [hdi] at heq
        dsimp only at heq
        by_cases hrange : n < 0 ∨ (smells.length : Int) ≤ n
        · rw [if_pos hrange] at heq
          by_cases hpos : smells.length ≤ acc.length
          · rw [if_pos hpos] at heq
            exact ih acc suggs hacc heq r hr
          · rw [if_neg hpos] at heq
            refine ih _ suggs ?_ heq r hr
            intro r' hr'
            rcases List.mem_append.mp hr' with h' | h'
            · exact hacc r' h'
            · simp only [List.mem_singleton] at h'
              rw [h']
              exact getD_mem_of_lt smells defaultSmell acc.length (by omega)
        · rw [if_neg hrange] at heq
          refine ih _ suggs ?_ heq r hr
          intro r' hr'
          rcases List.mem_append.mp hr' with h' | h'
          · exact hacc r' h'
          · simp only [List.mem_singleton] at h'
            rw [h']
            exact getD_mem_of_lt smells defaultSmell n.toNat (by omega)
    | null => exact absurd heq (by simp [suggestionLoop])
    | bool b => exact absurd heq (by simp [suggestionLoop])
    | num m => exact absurd heq (by simp [suggestionLoop])
    | str s => exact absurd heq (by simp [suggestionLoop])
    | arr xs => exact absurd heq (by simp [suggestionLoop])

end C6Helpers

/-- C6 counterexample: a batch response whose two suggestion objects both
declare `smell_index` 0, parsed against a one-smell batch, returns two
suggestions that reference the same smell — the parser never enforces
at-most-one suggestion per smell. -/
theorem c6_unique_link_counterexample :
    (Pipeline.parseBatchResponse rfConst rawDoubleIndex [sampleSmell]).map
        (List.map Pipeline.RefactoringSuggestion.smell) =
      Except.ok [sampleSmell, sampleSmell] ∧
    ¬ List.Pairwise (fun a b => a ≠ b) [sampleSmell, sampleSmell] :=
  ⟨rfl, by decide⟩

/-- C6 (amended): every suggestion returned by a successful parse is linked
to exactly one smell, and that smell belongs to the batch's smell list; but
distinct suggestions may link to the same smell — the code does not enforce
the at-most-one-suggestion-per-smell reading, as the counterexample shows. -/
theorem c6_smell_link_amended (readFile : String → String) (raw : String)
    (smells : List Pipeline.DesignSmell)
    (suggs : List Pipeline.RefactoringSuggestion)
    (h : Pipeline.parseBatchResponse readFile raw smells = Except.ok suggs) :
    ∀ r ∈ suggs, r.smell ∈ smells := by
  unfold Pipeline.parseBatchResponse at h
  rcases hj : PyJson.jsonLoads (Pipeline.cleanResponse raw) with - | v
  · rw [hj] at h
    simp only [Except.ok.injEq] at h
    subst h
    intro r hr
    simp at hr
  · rw [hj] at h
    cases v with
    | obj fields =>
      dsimp only at h
      rcases hg : Pipeline.jget fields ("suggestions") (PyJson.JValue.arr []) with
        - | b | m | s | items | fs
      all_goals rw [hg] at h
      all_goals dsimp only at h
      · exact absurd h (by simp)
      · exact absurd h (by simp)
      · exact absurd h (by simp)
      · by_cases hs : s.isEmpty
        · rw [if_pos hs] at h
          simp only [Except.ok.injEq] at h
          subst h
          intro r hr
          simp at hr
        · rw [if_neg hs] at h
          exact absurd h (by simp)
      · exact suggestionLoop_smell_mem readFile smells items [] suggs
          (by intro r hr; simp at hr) h
      · by_cases hs : fs.isEmpty
        · rw [if_pos hs] at h
          simp only [Except.ok.injEq] at h
          subst h
          intro r hr
          simp at hr
        · rw [if_neg hs] at h
          exact absurd h (by simp)
    | null => exact absurd h (by simp)
    | bool b => exact absurd h (by simp)
    | num m => exact absurd h (by simp)
    | str s => exact absurd h (by simp)
    | arr xs => exact absurd h (by simp)

/-- Witness for the amended C6: the suggestion parsed from a well-formed
single-suggestion response links back to the batch's smell. -/
theorem c6_smell_link_amended_witness :
    (Pipeline.mkSuggestion rfConst sampleSmell fieldsIdx0).smell ∈ [sampleSmell] :=
  c6_smell_link_amended rfConst rawSingleIndex [sampleSmell]
    [Pipeline.mkSuggestion rfConst sampleSmell fieldsIdx0] rfl
    (Pipeline.mkSuggestion rfConst sampleSmell fieldsIdx0)
    (List.mem_singleton.mpr rfl)

section C7Helpers

open Pipeline PyJson

/-- Once the collected-suggestion count and the position have both reached
the smell count, the parsing loop agrees with the spec-side positional
correlation (both skip every unmatched suggestion from here on). -/
theorem suggestionLoop_spec_saturated (readFile : String → String)
    (smells : List DesignSmell) :
    ∀ (items : List (List (String × JValue))) (acc : List RefactoringSuggestion)
      (i : Nat),
      (∀ f ∈ items, (declaredIdx f).isSome) →
      smells.length ≤ acc.length → smells.length ≤ i →
      suggestionLoop readFile smells (items.map JValue.obj) acc =
        Except.ok (acc ++ positionalCorrelate readFile smells items i) := by
  intro items
  induction items with
  | nil =>
    intro acc i _ _ _
    simp [suggestionLoop, positionalCorrelate]
  | cons f rest ih =>
    intro acc i hgood h1 h2
    simp only [List.map_cons, suggestionLoop, positionalCorrelate]
    rcases hdi : declaredIdx f with - | n
    · have := hgood f (by simp)
      rw [hdi] at this
      simp at this
    · dsimp only
      have hrange : n < 0 ∨ (smells.length : Int) ≤ n ∨
          (0 ≤ n ∧ n < (smells.length : Int)) := by omega
      by_cases hr : n < 0 ∨ (smells.length : Int) ≤ n
      · rw [if_pos hr, if_pos h1]
        have hspec : specIdxOf smells n i = none := by
          simp only [specIdxOf]
          rw [if_neg (by omega), if_neg (by omega)]
        rw [hspec]
        exact ih acc (i + 1) (fun g hg => hgood g (by simp [hg])) h1 (by omega)
      · rw [if_neg hr]
        have hspec : specIdxOf smells n i = some n.toNat := by
          simp only [specIdxOf]
          rw [if_pos (by omega)]
        rw [hspec]
        rw [ih (acc ++ [mkSuggestion readFile (smells.getD n.toNat defaultSmell) f])
          (i + 1) (fun g hg => hgood g (by simp [hg])) (by simp; omega) (by omega)]
        simp

/-- While every earlier suggestion has been matched (the collected count
equals the position), the parsing loop agrees with the spec-side positional
correlation. -/
theorem suggestionLoop_spec_aligned (readFile : String → String)
    (smells : List DesignSmell) :
    ∀ (items : List (List (String × JValue))) (acc : List RefactoringSuggestion)
      (i : Nat),
      (∀ f ∈ items, (declaredIdx f).isSome) →
      acc.length = i →
      suggestionLoop readFile smells (items.map JValue.obj) acc =
        Except.ok (acc ++ positionalCorrelate readFile smells items i) := by
  intro items
  induction items with
  | nil =>
    intro acc i _ _
    simp [suggestionLoop, positionalCorrelate]
  | cons f rest ih =>
    intro acc i hgood hlen
    subst hlen
    simp only [List.map_cons, suggestionLoop, positionalCorrelate]
    rcases hdi : declaredIdx f with - | n
    · have := hgood f (by simp)
      rw [hdi] at this
      simp at this
    · dsimp only
      by_cases hr : n < 0 ∨ (smells.length : Int) ≤ n
      · rw [if_pos hr]
        by_cases hskip : smells.length ≤ acc.length
        · rw [if_pos hskip]
          have hspec : specIdxOf smells n acc.length = none := by
            simp only [specIdxOf]
            rw [if_neg (by omega), if_neg (by omega)]
          rw [hspec]
          exact suggestionLoop_spec_saturated readFile smells rest acc (acc.length + 1)
            (fun g hg => hgood g (by simp [hg])) hskip (by omega)
        · rw [if_neg hskip]
          have hspec : specIdxOf smells n acc.length = some acc.length := by
            simp only [specIdxOf]
            rw [if_neg (by omega), if_pos (by omega)]
          rw [hspec]
          rw [ih (acc ++ [mkSuggestion readFile (smells.getD acc.length defaultSmell) f])
            (acc.length + 1) (fun g hg => hgood g (by simp [hg])) (by simp)]
          simp
      · rw [if_neg hr]
        have hspec : specIdxOf smells n acc.length = some n.toNat := by
          simp only [specIdxOf]
          rw [if_pos (by omega)]
        rw [hspec]
        rw [ih (acc ++ [mkSuggestion readFile (smells.getD n.toNat defaultSmell) f])
          (acc.length + 1) (fun g hg => hgood g (by simp [hg])) (by simp)]
        simp

end C7Helpers

/-- C7: for every batch smell list and every sequence of suggestion objects
with well-typed (or absent) declared indices, the parsing loop of
`_parse_batch_response` computes exactly the spec-side correlation: a
suggestion with an absent or out-of-range `smell_index` is correlated
positionally against the batch's smell list, in order, and an unmatched
suggestion whose positional index falls beyond the available smell count is
skipped rather than returned. -/
theorem c7_positional_fallback (readFile : String → String)
    (smells : List Pipeline.DesignSmell)
    (items : List (List (String × PyJson.JValue)))
    (hgood : ∀ f ∈ items, (Pipeline.declaredIdx f).isSome) :
    Pipeline.suggestionLoop readFile smells (items.map PyJson.JValue.obj) [] =
      Except.ok (Pipeline.positionalCorrelate readFile smells items 0) := by
  simpa using suggestionLoop_spec_aligned readFile smells items [] 0 hgood rfl

/-- Witness for C7 at a concrete input: one suggestion with an out-of-range
declared index (correlated positionally to the only smell) and one with the
key absent (skipped, since the position is beyond the smell count). -/
theorem c7_positional_fallback_witness :
    Pipeline.suggestionLoop rfConst [sampleSmell]
        (itemsPositional.map PyJson.JValue.obj) [] =
      Except.ok (Pipeline.positionalCorrelate rfConst [sampleSmell] itemsPositional 0) :=
  c7_positional_fallback rfConst [sampleSmell] itemsPositional (by decide)

/-- C8: a file whose external parse raises any exception contributes nothing
to the scan — the per-file step leaves the accumulated results unchanged
(zero smell records for that file, whether `_static_analysis` catches the
`JavaSyntaxError` itself or `scan_repository` catches the re-raised
exception) — and the whole scan over any surrounding files equals the scan
with that file removed, so a single file's parse failure is never fatal to
the run. -/
theorem c8_parse_failure_soft (th : Pipeline.Thresholds)
    (pre post : List Pipeline.JavaFile) (f : Pipeline.JavaFile) (e : String)
    (he : f.parseResult = Except.error e) :
    (∀ acc, Pipeline.scanStep th acc f = acc) ∧
    Pipeline.scanRepository th (pre ++ f :: post) =
      Pipeline.scanRepository th (pre ++ post) := by
  have hstep : ∀ acc, Pipeline.scanStep th acc f = acc := by
    intro acc
    simp only [Pipeline.scanStep, Pipeline.analyzeFile, Pipeline.staticAnalysis, he]
    by_cases hjse : e = "JavaSyntaxError" <;> simp [hjse]
  refine ⟨hstep, ?_⟩
  simp only [Pipeline.scanRepository, List.foldl_append, List.foldl_cons]
  rw [hstep]

/-- Witness for C8 at a concrete input: a file on which the parser raises a
`LexerError` (not the caught `JavaSyntaxError`) contributes nothing and the
scan of its neighbours is unchanged. -/
theorem c8_parse_failure_soft_witness :
    Pipeline.scanStep Pipeline.defaultThresholds ([], []) fileBad = ([], []) ∧
    Pipeline.scanRepository Pipeline.defaultThresholds [fileOk10, fileBad, fileOk600] =
      Pipeline.scanRepository Pipeline.defaultThresholds [fileOk10, fileOk600] :=
  ⟨(c8_parse_failure_soft Pipeline.defaultThresholds [fileOk10] [fileOk600]
      fileBad "LexerError" rfl).1 ([], []),
   (c8_parse_failure_soft Pipeline.defaultThresholds [fileOk10] [fileOk600]
      fileBad "LexerError" rfl).2⟩

/-- C9: for every batch the planner produces, the linked smell context is
exactly the sub-multiset of known smells whose file matches a file of that
batch (characterised by occurrence counts), and the report attached to the
batch's prompt is the report of those matching smells when any exist and the
report of every globally known smell otherwise (the unconditional fallback —
never an empty context). -/
theorem c9_batch_smell_context (available : Nat) (items : List (String × String))
    (smells : List Scripts.DesignSmell) :
    ∀ b ∈ Scripts.buildBatches available items,
      (∀ s, (Scripts.linkedSmells smells b).count s =
        if s.file ∈ b.map Prod.fst then smells.count s else 0) ∧
      Scripts.batchSmellReport smells (Scripts.formatSmellReport smells) b =
        Scripts.formatSmellReport
          (if (Scripts.linkedSmells smells b).isEmpty then smells
           else Scripts.linkedSmells smells b) := by
  intro b _hb
  constructor
  · intro s
    by_cases hp : s.file ∈ b.map Prod.fst
    · rw [if_pos hp]
      exact List.count_filter (by simpa using hp)
    · rw [if_neg hp]
      refine List.count_eq_zero.mpr ?_
      intro hmem
      exact hp (by simpa using (List.mem_filter.mp hmem).2)
  · simp only [Scripts.batchSmellReport]
    by_cases hbs : (Scripts.linkedSmells smells b).isEmpty
    · rw [if_pos hbs, if_pos hbs]
    · rw [if_neg hbs, if_neg hbs]

/-- Witness for C9 at a concrete input: a one-file batch whose file carries
the only known smell. -/
theorem c9_batch_smell_context_witness :
    ((Scripts.linkedSmells [sW] bW).count sW =
      if sW.file ∈ bW.map Prod.fst then ([sW] : List Scripts.DesignSmell).count sW
      else 0) ∧
    Scripts.batchSmellReport [sW] (Scripts.formatSmellReport [sW]) bW =
      Scripts.formatSmellReport
        (if (Scripts.linkedSmells [sW] bW).isEmpty then [sW]
         else Scripts.linkedSmells [sW] bW) :=
  ⟨(c9_batch_smell_context 100 bW [sW] bW (by decide)).1 sW,
   (c9_batch_smell_context 100 bW [sW] bW (by decide)).2⟩

section C10Helpers

open Pipeline

/-- Membership in a stable insertion. -/
theorem mem_insertByKey {α : Type} (key : α → Nat) (x b : α) :
    ∀ l : List α, b ∈ insertByKey key x l ↔ b = x ∨ b ∈ l := by
  intro l
  induction l with
  | nil => simp [insertByKey]
  | cons y ys ih =>
    simp only [insertByKey]
    by_cases hle : key x ≤ key y
    · rw [if_pos hle]
      simp [List.mem_cons]
    · rw [if_neg hle]
      simp only [List.mem_cons, ih]
      tauto

/-- Stable insertion preserves key-sortedness. -/
theorem insertByKey_pairwise {α : Type} (key : α → Nat) (x : α) :
    ∀ l : List α,
      List.Pairwise (fun a b => key a ≤ key b) l →
      List.Pairwise (fun a b => key a ≤ key b) (insertByKey key x l) := by
  intro l
  induction l with
  | nil => intro _; simp [insertByKey]
  | cons y ys ih =>
    intro h
    rcases List.pairwise_cons.mp h with ⟨hy, hys⟩
    simp only [insertByKey]
    by_cases hle : key x ≤ key y
    · rw [if_pos hle]
      refine List.pairwise_cons.mpr ⟨?_, h⟩
      intro b hb
      rcases List.mem_cons.mp hb with hb | hb
      · exact hb ▸ hle
      · exact le_trans hle (hy b hb)
    · rw [if_neg hle]
      refine List.pairwise_cons.mpr ⟨?_, ih hys⟩
      intro b hb
      rcases (mem_insertByKey key x b ys).mp hb with hb | hb
      · rw [hb]; omega
      · exact hy b hb

/-- The sort is pairwise key-monotone. -/
theorem sortByKey_pairwise {α : Type} (key : α → Nat) :
    ∀ l : List α,
      List.Pairwise (fun a b => key a ≤ key b) (sortByKey key l) := by
  intro l
  induction l with
  | nil => simp [sortByKey]
  | cons x xs ih => exact insertByKey_pairwise key x _ ih

/-- Filtering one key class through a stable insertion: the new element goes
to the front of its class, everything else is untouched. -/
theorem insertByKey_filter {α : Type} (key : α → Nat) (x : α) (k : Nat) :
    ∀ l : List α,
      (insertByKey key x l).filter (fun z => key z == k) =
        if key x = k then x :: l.filter (fun z => key z == k)
        else l.filter (fun z => key z == k) := by
  intro l
  induction l with
  | nil =>
    by_cases hx : key x = k <;> simp [insertByKey, List.filter_cons, hx]
  | cons y ys ih =>
    simp only [insertByKey]
    by_cases hle : key x ≤ key y
    · rw [if_pos hle]
      by_cases hx : key x = k <;> simp [List.filter_cons, hx]
    · rw [if_neg hle]
      by_cases hy : key y = k
      · have hx : ¬ key x = k := by omega
        simp [List.filter_cons, hy, ih, hx]
      · simp [List.filter_cons, hy, ih]

/-- Stability of the sort, expressed per key class: the elements of each key
class appear in the sorted list exactly as they appear in the input. -/
theorem sortByKey_filter {α : Type} (key : α → Nat) (k : Nat) :
    ∀ l : List α,
      (sortByKey key l).filter (fun z => key z == k) =
        l.filter (fun z => key z == k) := by
  intro l
  induction l with
  | nil => rfl
  | cons x xs ih =>
    simp only [sortByKey]
    rw [insertByKey_filter]
    by_cases hx : key x = k <;> simp [List.filter_cons, hx, ih]

end C10Helpers

/-- C10: `generate_suggestions` submits to its single batch request exactly
the first `max_suggestions` smells of the input after the stable
severity-priority sort (HIGH before MEDIUM before LOW, unknown severities
last): the submitted list is the `take` of the sorted list, the sorted list
is pairwise ordered by priority, each priority class keeps its input order
(stability), an empty smell list causes zero API calls and an empty
suggestion list, and a non-empty submission makes exactly one API call. -/
theorem c10_generate_suggestions (api : String → Option String)
    (readFile : String → String) (smells : List Pipeline.DesignSmell)
    (maxS : Nat) :
    (Pipeline.generateSuggestions api readFile smells maxS).2.1 =
      (Pipeline.sortByKey (fun s => Pipeline.priorityOrder s.severity) smells).take maxS ∧
    List.Pairwise
      (fun a b => Pipeline.priorityOrder a.severity ≤ Pipeline.priorityOrder b.severity)
      (Pipeline.sortByKey (fun s => Pipeline.priorityOrder s.severity) smells) ∧
    (∀ k, (Pipeline.sortByKey (fun s => Pipeline.priorityOrder s.severity) smells).filter
        (fun s => Pipeline.priorityOrder s.severity == k) =
      smells.filter (fun s => Pipeline.priorityOrder s.severity == k)) ∧
    (smells = [] →
      (Pipeline.generateSuggestions api readFile smells maxS).1 = 0 ∧
      (Pipeline.generateSuggestions api readFile smells maxS).2.2 = Except.ok []) ∧
    ((Pipeline.sortByKey (fun s => Pipeline.priorityOrder s.severity) smells).take maxS ≠ [] →
      (Pipeline.generateSuggestions api readFile smells maxS).1 = 1) := by
  refine ⟨?_, sortByKey_pairwise _ smells, fun k => sortByKey_filter _ k smells, ?_, ?_⟩
  · unfold Pipeline.generateSuggestions
    dsimp only
    split
    · rfl
    · split <;> rfl
  · intro h
    subst h
    refine ⟨?_, ?_⟩ <;> simp [Pipeline.generateSuggestions, Pipeline.sortByKey]
  · intro hne
    have hfalse :
        ¬ ((Pipeline.sortByKey (fun s => Pipeline.priorityOrder s.severity) smells).take
            maxS).isEmpty = true := by
      simpa [List.isEmpty_iff] using hne
    unfold Pipeline.generateSuggestions
    rw [if_neg hfalse]
    split <;> rfl

/-- Witness for C10 at a concrete input: the empty smell list makes no API
call and yields no suggestions. -/
theorem c10_generate_suggestions_witness :
    (Pipeline.generateSuggestions apiNone rfConst [] 5).1 = 0 ∧
    (Pipeline.generateSuggestions apiNone rfConst [] 5).2.2 = Except.ok [] :=
  (c10_generate_suggestions apiNone rfConst [] 5).2.2.2.1 rfl
